import Mathlib

/-!
Shallow embedding of `src/Source/WriteMemSafe.c` (MicroPXL).

The C file defines two functions:

```c
void writeMemSafe(void* address, uint32_t value)
{
  __sync_synchronize();
  *((uint32_t*)address) = value;
  __sync_synchronize();
}

uint32_t readMemSafe(void const* address)
{
  __sync_synchronize();
  uint32_t const value = *((uint32_t const*)address);
  __sync_synchronize();
  return value;
}
```

Memory is modelled byte-addressed (each address holds one byte), as in the
C object model, so that overlap and non-overlap of 32-bit slots is
expressible.  The 32-bit access is decomposed little-endian into its four
byte cells.  Each function body is also represented as the literal sequence
of its primitive steps (fence, store, fence / fence, load, fence), with an
executor relating the sequence to the functional behaviour.
-/

namespace MicroPXL

/-- Byte-addressed memory: each address holds one byte. -/
def Mem : Type := Nat → Fin 256

/-- Byte number `i` of the value `v`, little-endian. -/
def byteOf (v i : Nat) : Fin 256 := ⟨v / 256 ^ i % 256, Nat.mod_lt _ (by decide)⟩

/-- The raw store `*((uint32_t*)address) = value;` of `writeMemSafe`:
writes the four bytes of `v` into the cells `a`, `a+1`, `a+2`, `a+3`. -/
def store32 (m : Mem) (a v : Nat) : Mem := fun x =>
  if x = a then byteOf v 0
  else if x = a + 1 then byteOf v 1
  else if x = a + 2 then byteOf v 2
  else if x = a + 3 then byteOf v 3
  else m x

/-- The raw load `*((uint32_t const*)address)` of `readMemSafe`:
assembles the 32-bit value from the four bytes at `a`, `a+1`, `a+2`, `a+3`. -/
def load32 (m : Mem) (a : Nat) : Nat :=
  (m a).val + 256 * (m (a + 1)).val + 65536 * (m (a + 2)).val +
    16777216 * (m (a + 3)).val

/-- One primitive step of a function body: a `__sync_synchronize()` fence,
the 32-bit store, or the 32-bit load. -/
inductive Event where
  | fence : Event
  | store (a v : Nat) : Event
  | load (a : Nat) : Event

/-- The statement sequence of `writeMemSafe`, line by line. -/
def writeMemSafeBody (a v : Nat) : List Event :=
  [Event.fence, Event.store a v, Event.fence]

/-- The statement sequence of `readMemSafe`, line by line. -/
def readMemSafeBody (a : Nat) : List Event :=
  [Event.fence, Event.load a, Event.fence]

/-- Effect of one step on the machine state: the memory together with the
contents of the local `value` variable of `readMemSafe`, if assigned. -/
def execEvent (s : Mem × Option Nat) (e : Event) : Mem × Option Nat :=
  match e with
  | Event.fence => s
  | Event.store a v => (store32 s.1 a v, s.2)
  | Event.load a => (s.1, some (load32 s.1 a))

/-- Run a statement sequence to completion. -/
def execEvents (s : Mem × Option Nat) (es : List Event) : Mem × Option Nat :=
  es.foldl execEvent s

/-- Fuel-bounded executor: returns `none` if the fuel runs out before the
sequence is exhausted.  Used to state termination in a bounded number of
steps. -/
def execFuel : Nat → Mem × Option Nat → List Event → Option (Mem × Option Nat)
  | _, s, [] => some s
  | 0, _, _ :: _ => none
  | n + 1, s, e :: es => execFuel n (execEvent s e) es

/-- `writeMemSafe`: the memory after executing the body. -/
def writeMemSafe (m : Mem) (a v : Nat) : Mem :=
  (execEvents (m, none) (writeMemSafeBody a v)).1

/-- `readMemSafe`, with its effect on memory made explicit: the memory after
executing the body, and the returned value. -/
def readMemSafeSt (m : Mem) (a : Nat) : Mem × Nat :=
  let s := execEvents (m, none) (readMemSafeBody a)
  (s.1, s.2.getD 0)

/-- The value returned by `readMemSafe`. -/
def readMemSafe (m : Mem) (a : Nat) : Nat := (readMemSafeSt m a).2

/-- A call made by a client of the pair of functions. -/
inductive Op where
  | write (a v : Nat) : Op
  | read (a : Nat) : Op

/-- Memory after one client call. -/
def runOp (m : Mem) : Op → Mem
  | Op.write a v => writeMemSafe m a v
  | Op.read a => (readMemSafeSt m a).1

/-- Memory after a history of client calls. -/
def runOps (m : Mem) (ops : List Op) : Mem := ops.foldl runOp m

/-- The alternating test values `0x00000000`, `0xFFFFFFFF`, ... -/
def altValue (k : Nat) : Nat := if k % 2 = 0 then 0 else 0xFFFFFFFF

/-- Perform `n` alternating writes to `a`, each immediately followed by a
read, collecting the values the reads return in order. -/
def altRun (a : Nat) (m : Mem) : Nat → Mem × List Nat
  | 0 => (m, [])
  | n + 1 =>
    let p := altRun a m n
    let m2 := writeMemSafe p.1 a (altValue n)
    (m2, p.2 ++ [readMemSafe m2 a])

/-- All-zero memory, used for concrete instances. -/
def zeroMem : Mem := fun _ => 0

lemma writeMemSafe_def (m : Mem) (a v : Nat) :
    writeMemSafe m a v = store32 m a v := rfl

lemma readMemSafe_def (m : Mem) (a : Nat) :
    readMemSafe m a = load32 m a := rfl

lemma load32_store32_same (m : Mem) (a v : Nat) :
    load32 (store32 m a v) a = v % 2 ^ 32 := by
  have h1 : a + 1 ≠ a := by omega
  have h2 : a + 2 ≠ a := by omega
  have h3 : a + 2 ≠ a + 1 := by omega
  have h4 : a + 3 ≠ a := by omega
  have h5 : a + 3 ≠ a + 1 := by omega
  have h6 : a + 3 ≠ a + 2 := by omega
  simp only [load32, store32, byteOf, if_pos, if_neg h1, if_neg h2, if_neg h3,
    if_neg h4, if_neg h5, if_neg h6, if_true, eq_self_iff_true]
  norm_num
  omega

lemma readMemSafe_writeMemSafe (m : Mem) (a v : Nat) :
    readMemSafe (writeMemSafe m a v) a = v % 2 ^ 32 :=
  load32_store32_same m a v

lemma store32_outside (m : Mem) (a v x : Nat) (h0 : x ≠ a) (h1 : x ≠ a + 1)
    (h2 : x ≠ a + 2) (h3 : x ≠ a + 3) : store32 m a v x = m x := by
  simp [store32, h0, h1, h2, h3]

lemma load32_congr (m1 m2 : Mem) (a : Nat)
    (h : ∀ i, i < 4 → m1 (a + i) = m2 (a + i)) : load32 m1 a = load32 m2 a := by
  have e0 := h 0 (by omega)
  have e1 := h 1 (by omega)
  have e2 := h 2 (by omega)
  have e3 := h 3 (by omega)
  simp only [Nat.add_zero] at e0
  unfold load32
  rw [e0, e1, e2, e3]

/-- C1: for every 32-bit value `v` and every 4-byte-aligned address `a`,
`writeMemSafe(a, v)` followed by `readMemSafe(a)` returns `v`. -/
theorem write_read_roundtrip (m : Mem) (a v : Nat) (ha : a % 4 = 0)
    (hv : v < 2 ^ 32) : readMemSafe (writeMemSafe m a v) a = v := by
  rw [readMemSafe_writeMemSafe]
  exact Nat.mod_eq_of_lt hv

/-- Witness for C1, the scenario from the spec: on an aligned zeroed slot,
writing `0xDEADBEEF` and reading it back returns `0xDEADBEEF`. -/
theorem write_read_roundtrip_witness :
    (0 : Nat) % 4 = 0 ∧ 0xDEADBEEF < 2 ^ 32 ∧
      readMemSafe (writeMemSafe zeroMem 0 0xDEADBEEF) 0 = 0xDEADBEEF :=
  ⟨by decide, by decide,
    write_read_roundtrip zeroMem 0 0xDEADBEEF (by decide) (by decide)⟩

/-- C2: any finite sequence of alternating writes of `0x00000000` and
`0xFFFFFFFF` to the same address, each immediately followed by a read,
has every read return the value just written. -/
theorem alternating_write_read (m : Mem) (a n : Nat) :
    (altRun a m n).2 = (List.range n).map altValue := by
  induction n with
  | zero => rfl
  | succ k ih =>
    have h := readMemSafe_writeMemSafe (altRun a m k).1 a (altValue k)
    have hv : altValue k % 2 ^ 32 = altValue k := by
      unfold altValue
      split <;> decide
    rw [hv] at h
    simp [altRun, List.range_succ, ih, h]

/-- C3: reading twice in succession with no intervening write returns the
same value both times: a second read, performed on the memory left behind
by the first, returns the same value the first one did. -/
theorem read_read_same (m : Mem) (a : Nat) :
    readMemSafe (readMemSafeSt m a).1 a = readMemSafe m a := rfl

/-- C4: after `writeMemSafe(a, v1); writeMemSafe(b, v2)` with the two
4-byte slots disjoint, reading `a` returns `v1` and reading `b` returns
`v2`. -/
theorem write_write_independent (m : Mem) (a b v1 v2 : Nat)
    (hd : a + 4 ≤ b ∨ b + 4 ≤ a) (h1 : v1 < 2 ^ 32) (h2 : v2 < 2 ^ 32) :
    readMemSafe (writeMemSafe (writeMemSafe m a v1) b v2) a = v1 ∧
      readMemSafe (writeMemSafe (writeMemSafe m a v1) b v2) b = v2 := by
  constructor
  · have hframe : ∀ i, i < 4 →
        store32 (store32 m a v1) b v2 (a + i) = store32 m a v1 (a + i) := by
      intro i hi
      apply store32_outside <;> omega
    have hload : readMemSafe (writeMemSafe (writeMemSafe m a v1) b v2) a
        = load32 (store32 (store32 m a v1) b v2) a := rfl
    rw [hload, load32_congr _ _ _ hframe, load32_store32_same]
    exact Nat.mod_eq_of_lt h1
  · rw [readMemSafe_writeMemSafe]
    exact Nat.mod_eq_of_lt h2

/-- Witness for C4: with disjoint slots at 0 and 4 in zeroed memory,
writing 1 then 2 leaves 1 readable at 0 and 2 readable at 4. -/
theorem write_write_independent_witness :
    ((0 : Nat) + 4 ≤ 4 ∨ 4 + 4 ≤ 0) ∧ (1 : Nat) < 2 ^ 32 ∧
      (2 : Nat) < 2 ^ 32 ∧
      readMemSafe (writeMemSafe (writeMemSafe zeroMem 0 1) 4 2) 0 = 1 ∧
      readMemSafe (writeMemSafe (writeMemSafe zeroMem 0 1) 4 2) 4 = 2 :=
  ⟨Or.inl (by decide), by decide, by decide,
    (write_write_independent zeroMem 0 4 1 2 (Or.inl (by decide)) (by decide)
      (by decide)).1,
    (write_write_independent zeroMem 0 4 1 2 (Or.inl (by decide)) (by decide)
      (by decide)).2⟩

/-- C5: the body of `writeMemSafe` is exactly fence, store, fence; the
call produces no return value, and its whole effect on memory is the
32-bit store of `v` at `a`. -/
theorem writeMemSafe_body_exact (m : Mem) (a v : Nat) :
    writeMemSafeBody a v = [Event.fence, Event.store a v, Event.fence] ∧
      (execEvents (m, none) (writeMemSafeBody a v)).2 = none ∧
      writeMemSafe m a v = store32 m a v :=
  ⟨rfl, rfl, rfl⟩

/-- C6: the body of `readMemSafe` is exactly fence, load, fence, and the
call returns exactly the loaded 32-bit value, unmodified. -/
theorem readMemSafe_body_exact (m : Mem) (a : Nat) :
    readMemSafeBody a = [Event.fence, Event.load a, Event.fence] ∧
      readMemSafe m a = load32 m a :=
  ⟨rfl, rfl⟩

/-- C8: no state is retained across calls.  For any two histories of prior
calls, if the resulting memories agree on the 4-byte slot at `a` then a
read of `a` returns the same value in both runs, and if they agree
everywhere then a write of `v` to `a` produces the same resulting memory
in both runs: each call depends only on its arguments and the current
memory. -/
theorem no_retained_state (m1 m2 : Mem) (h1 h2 : List Op) (a v : Nat) :
    ((∀ i, i < 4 → runOps m1 h1 (a + i) = runOps m2 h2 (a + i)) →
      readMemSafe (runOps m1 h1) a = readMemSafe (runOps m2 h2) a) ∧
    ((∀ x, runOps m1 h1 x = runOps m2 h2 x) →
      ∀ x, writeMemSafe (runOps m1 h1) a v x
        = writeMemSafe (runOps m2 h2) a v x) := by
  constructor
  · intro h
    show load32 (runOps m1 h1) a = load32 (runOps m2 h2) a
    exact load32_congr _ _ _ h
  · intro h x
    show store32 (runOps m1 h1) a v x = store32 (runOps m2 h2) a v x
    unfold store32
    split_ifs <;> first | rfl | exact h x

/-- Witness for C8: a history that wrote 5 at 0 and then read, against an
empty history started from the already-written memory, gives the same read
result and the same write result. -/
theorem no_retained_state_witness :
    readMemSafe (runOps zeroMem [Op.write 0 5, Op.read 0]) 0
        = readMemSafe (runOps (store32 zeroMem 0 5) []) 0 ∧
      writeMemSafe (runOps zeroMem [Op.write 0 5, Op.read 0]) 0 7 2
        = writeMemSafe (runOps (store32 zeroMem 0 5) []) 0 7 2 :=
  ⟨(no_retained_state zeroMem (store32 zeroMem 0 5) [Op.write 0 5, Op.read 0]
      [] 0 7).1 (fun _ _ => rfl),
    (no_retained_state zeroMem (store32 zeroMem 0 5) [Op.write 0 5, Op.read 0]
      [] 0 7).2 (fun _ => rfl) 2⟩

/-- C9: both calls terminate: each body is a fixed straight-line sequence
of exactly 3 steps, and 3 units of fuel always suffice to run it to
completion, for every memory, address and value. -/
theorem bodies_terminate (m : Mem) (a v : Nat) :
    (writeMemSafeBody a v).length = 3 ∧
      execFuel 3 (m, none) (writeMemSafeBody a v) = some (store32 m a v, none) ∧
      (readMemSafeBody a).length = 3 ∧
      execFuel 3 (m, none) (readMemSafeBody a) = some (m, some (load32 m a)) :=
  ⟨rfl, rfl, rfl, rfl⟩

/-- C10: `readMemSafe` leaves the entire memory unchanged: after the call,
every cell, including the slot at `a` itself, holds what it held before. -/
theorem read_preserves_memory (m : Mem) (a x : Nat) :
    (readMemSafeSt m a).1 x = m x := rfl

end MicroPXL
